import Mathlib

/-!
Verification of the NewsScraper repository (src/scraper.py, src/utils.py).

This file gives a shallow embedding of the scraper's core logic in Lean 4 and
proves the testable properties stated in the specification against it.

Modelling conventions:
* Python strings are `String` (Python slicing/containment is by code points,
  which matches Lean's `Char`-based `String.data`); machine helpers that are
  implemented via Lean's opaque-ish string machinery (slicing, `startswith`,
  `replace`) are re-implemented explicitly on `List Char` so that every step
  is a plain computable definition.
* The HTTP session is modelled as a function `net : String → NetOutcome`
  giving, for each URL, either an HTTP exchange (status code plus the parsed
  document for the body) or a raised transport/parse exception.  A
  BeautifulSoup document is abstracted to the list of card elements matching
  the structural marker `div.loop-card__content`, in document order; each card
  is abstracted to the results of the three `find` calls that
  `parse_article_from_card` performs on it.
* Side effects are explicit: the append-only error log is threaded as a
  `List String`, and the loop additionally returns the trace of page numbers
  it actually fetched (the observable sequence of network calls).
* Wall-clock time (`datetime.now()`, stored in `scraped_at`) is passed in as
  an explicit `now : String` parameter.
-/

set_option maxRecDepth 8000

namespace NewsScraper

/-! ### utils.py -/

/-- The set of characters Python's `str.split()` / `str.strip()` treat as
whitespace (Unicode whitespace, given here by code point). -/
def pyIsSpace (c : Char) : Bool :=
  [9, 10, 11, 12, 13, 28, 29, 30, 31, 32, 133, 160, 5760,
   8192, 8193, 8194, 8195, 8196, 8197, 8198, 8199, 8200, 8201, 8202,
   8232, 8233, 8239, 8287, 12288].contains c.toNat

/-- Accumulator-style tokenizer: `tokensAux l cur` returns the maximal runs of
non-whitespace characters of `cur ++ l` (where `cur` is the partial token read
so far).  `tokensAux l []` is Python's `l.split()`. -/
def tokensAux : List Char → List Char → List (List Char)
  | [], cur => if cur.isEmpty then [] else [cur]
  | c :: cs, cur =>
      if pyIsSpace c then
        (if cur.isEmpty then tokensAux cs [] else cur :: tokensAux cs [])
      else
        tokensAux cs (cur ++ [c])

/-- Python `text.split()` (split on runs of whitespace, dropping empty pieces). -/
def pySplit (l : List Char) : List (List Char) := tokensAux l []

/-- Python `text.strip()`: remove leading and trailing whitespace. -/
def pyStrip (l : List Char) : List Char :=
  (((l.dropWhile fun c => pyIsSpace c).reverse.dropWhile fun c => pyIsSpace c).reverse)

/-- Model of `utils.clean_text`:  `'' if not text else ' '.join(text.strip().split())`. -/
def clean_text (s : String) : String :=
  if s = "" then ""
  else String.mk (List.intercalate [' '] (pySplit (pyStrip s.data)))

/-! #### MD5 (`hashlib.md5(...).hexdigest()`), used by `utils.get_hash` -/

/-- UTF-8 encoding of one code point (Python `str.encode('utf-8')`). -/
def utf8Bytes (c : Char) : List Nat :=
  let n := c.toNat
  if n < 128 then [n]
  else if n < 2048 then [192 + n / 64, 128 + n % 64]
  else if n < 65536 then [224 + n / 4096, 128 + (n / 64) % 64, 128 + n % 64]
  else [240 + n / 262144, 128 + (n / 4096) % 64, 128 + (n / 64) % 64, 128 + n % 64]

/-- UTF-8 bytes of a string. -/
def utf8Encode (s : String) : List Nat := (s.data.map utf8Bytes).flatten

/-- The 64 MD5 round constants `⌊|sin(i+1)|·2^32⌋`. -/
def md5K : List Nat :=
  [0xd76aa478, 0xe8c7b756, 0x242070db, 0xc1bdceee,
   0xf57c0faf, 0x4787c62a, 0xa8304613, 0xfd469501,
   0x698098d8, 0x8b44f7af, 0xffff5bb1, 0x895cd7be,
   0x6b901122, 0xfd987193, 0xa679438e, 0x49b40821,
   0xf61e2562, 0xc040b340, 0x265e5a51, 0xe9b6c7aa,
   0xd62f105d, 0x02441453, 0xd8a1e681, 0xe7d3fbc8,
   0x21e1cde6, 0xc33707d6, 0xf4d50d87, 0x455a14ed,
   0xa9e3e905, 0xfcefa3f8, 0x676f02d9, 0x8d2a4c8a,
   0xfffa3942, 0x8771f681, 0x6d9d6122, 0xfde5380c,
   0xa4beea44, 0x4bdecfa9, 0xf6bb4b60, 0xbebfbc70,
   0x289b7ec6, 0xeaa127fa, 0xd4ef3085, 0x04881d05,
   0xd9d4d039, 0xe6db99e5, 0x1fa27cf8, 0xc4ac5665,
   0xf4292244, 0x432aff97, 0xab9423a7, 0xfc93a039,
   0x655b59c3, 0x8f0ccc92, 0xffeff47d, 0x85845dd1,
   0x6fa87e4f, 0xfe2ce6e0, 0xa3014314, 0x4e0811a1,
   0xf7537e82, 0xbd3af235, 0x2ad7d2bb, 0xeb86d391]

/-- The MD5 per-round left-rotation amounts. -/
def md5S : List Nat :=
  [7, 12, 17, 22, 7, 12, 17, 22, 7, 12, 17, 22, 7, 12, 17, 22,
   5, 9, 14, 20, 5, 9, 14, 20, 5, 9, 14, 20, 5, 9, 14, 20,
   4, 11, 16, 23, 4, 11, 16, 23, 4, 11, 16, 23, 4, 11, 16, 23,
   6, 10, 15, 21, 6, 10, 15, 21, 6, 10, 15, 21, 6, 10, 15, 21]

def mask32 : Nat := 4294967295

def rotl32 (x s : Nat) : Nat :=
  ((x <<< s) ||| (x >>> (32 - s))) &&& mask32

def not32 (x : Nat) : Nat := x ^^^ mask32

/-- MD5 padding: append `0x80`, zero bytes to 56 mod 64, then the original
bit length as 8 little-endian bytes. -/
def md5Pad (msg : List Nat) : List Nat :=
  let padLen := (119 - msg.length % 64) % 64 + 1
  let bitLen := (msg.length * 8) % (2 ^ 64)
  msg ++ (128 :: List.replicate (padLen - 1) 0)
      ++ ((List.range 8).map fun i => (bitLen >>> (8 * i)) % 256)

/-- Little-endian 32-bit word at word-index `j` of a 64-byte chunk. -/
def md5Word (chunk : List Nat) (j : Nat) : Nat :=
  chunk.getD (4 * j) 0 + 256 * chunk.getD (4 * j + 1) 0
    + 65536 * chunk.getD (4 * j + 2) 0 + 16777216 * chunk.getD (4 * j + 3) 0

/-- One of the 64 MD5 rounds applied to state `(a, b, c, d)`. -/
def md5Round (chunk : List Nat) (st : Nat × Nat × Nat × Nat) (i : Nat) :
    Nat × Nat × Nat × Nat :=
  let (a, b, c, d) := st
  let fg : Nat × Nat :=
    if i < 16 then ((b &&& c) ||| (not32 b &&& d), i)
    else if i < 32 then ((d &&& b) ||| (not32 d &&& c), (5 * i + 1) % 16)
    else if i < 48 then ((b ^^^ c) ^^^ d, (3 * i + 5) % 16)
    else (c ^^^ (b ||| not32 d), (7 * i) % 16)
  let f := (fg.1 + a + md5K.getD i 0 + md5Word chunk fg.2) &&& mask32
  (d, (b + rotl32 f (md5S.getD i 0)) &&& mask32, b, c)

/-- Process one 64-byte chunk. -/
def md5Chunk (st : Nat × Nat × Nat × Nat) (chunk : List Nat) :
    Nat × Nat × Nat × Nat :=
  let (a0, b0, c0, d0) := st
  let (a, b, c, d) := (List.range 64).foldl (md5Round chunk) (a0, b0, c0, d0)
  ((a0 + a) &&& mask32, (b0 + b) &&& mask32, (c0 + c) &&& mask32, (d0 + d) &&& mask32)

/-- MD5 of a byte sequence, as the four 32-bit state words. -/
def md5State (msg : List Nat) : Nat × Nat × Nat × Nat :=
  let padded := md5Pad msg
  (List.range (padded.length / 64)).foldl
    (fun st i => md5Chunk st ((padded.drop (64 * i)).take 64))
    (0x67452301, 0xefcdab89, 0x98badcfe, 0x10325476)

def hexDigit (n : Nat) : Char :=
  if n < 10 then Char.ofNat (48 + n) else Char.ofNat (87 + n)

def byteHex (b : Nat) : List Char := [hexDigit (b / 16 % 16), hexDigit (b % 16)]

/-- Lowercase hex rendering of a 32-bit word, byte-wise little-endian
(as in MD5 digests). -/
def wordHexLE (w : Nat) : List Char :=
  byteHex (w % 256) ++ byteHex (w / 256 % 256)
    ++ byteHex (w / 65536 % 256) ++ byteHex (w / 16777216 % 256)

/-- Model of `utils.get_hash`: `hashlib.md5(text.encode('utf-8')).hexdigest()`. -/
def get_hash (text : String) : String :=
  let (a, b, c, d) := md5State (utf8Encode text)
  String.mk (wordHexLE a ++ wordHexLE b ++ wordHexLE c ++ wordHexLE d)

/-! ### Python string helpers used by scraper.py -/

/-- Python `s[:n]` on a string (slicing is by code point). -/
def pySlice (s : String) (n : Nat) : String := String.mk (s.data.take n)

/-- Python `s.startswith(p)`. -/
def pyStartsWith (s p : String) : Bool := decide (s.data.take p.data.length = p.data)

/-- Python `s.replace('Z', '+00:00')` (the pattern is a single character, so
replacement is simply per-character substitution). -/
def pyReplaceZ (s : String) : String :=
  String.mk ((s.data.map fun c => if c = 'Z' then ("+00:00").data else [c]).flatten)

/-! ### `datetime.fromisoformat` / `strftime` model

`scraper.py` calls `datetime.fromisoformat` (after replacing a literal `Z`
with `+00:00`) and formats the result with `strftime("%Y-%m-%d %H:%M")`.
These live in CPython's standard library, outside this repository; they are
modelled here by an explicit parser for the ISO-8601 subset that function
accepts: `YYYY-MM-DD[<sep>HH[:MM[:SS[.fff|.ffffff]]][±HH:MM[:SS[.ffffff]]]]`,
with the usual calendar/clock range validation.  The timezone offset is
validated but not stored (strftime `%Y-%m-%d %H:%M` does not use it). -/

structure PyDateTime where
  year : Nat
  month : Nat
  day : Nat
  hour : Nat
  minute : Nat
  second : Nat
deriving DecidableEq, Repr

def digitVal (c : Char) : Nat := c.toNat - 48

/-- Parse exactly two decimal digits. -/
def parse2 : List Char → Option (Nat × List Char)
  | a :: b :: rest =>
      if a.isDigit && b.isDigit then some (digitVal a * 10 + digitVal b, rest)
      else none
  | _ => none

/-- Parse exactly four decimal digits. -/
def parse4 : List Char → Option (Nat × List Char)
  | a :: b :: c :: d :: rest =>
      if a.isDigit && b.isDigit && c.isDigit && d.isDigit then
        some (((digitVal a * 10 + digitVal b) * 10 + digitVal c) * 10 + digitVal d, rest)
      else none
  | _ => none

/-- Parse a fractional-seconds suffix `.fff` or `.ffffff`; `none` when the
input does not begin with a well-formed fraction. -/
def parseFrac (l : List Char) : Option (List Char) :=
  match l with
  | '.' :: rest =>
      let ds := rest.takeWhile Char.isDigit
      if ds.length = 3 ∨ ds.length = 6 then some (rest.drop ds.length) else none
  | _ => none

/-- Validate an optional trailing UTC-offset suffix `±HH:MM[:SS[.ffffff]]`. -/
def parseTzSecs (l : List Char) : Bool :=
  match parse2 l with
  | some (ts, rest) =>
      if ts ≤ 59 then
        (rest.isEmpty ||
          (match parseFrac rest with
           | some [] => true
           | _ => false))
      else false
  | none => false

def parseTz : List Char → Bool
  | [] => true
  | c :: rest =>
      (c = '+' || c = '-') &&
      (match parse2 rest with
       | some (th, ':' :: r2) =>
           (match parse2 r2 with
            | some (tm, r3) =>
                if th ≤ 23 ∧ tm ≤ 59 then
                  (match r3 with
                   | [] => true
                   | ':' :: r4 => parseTzSecs r4
                   | _ => false)
                else false
            | none => false)
       | _ => false)

/-- Parse the time-of-day part `HH[:MM[:SS[.fff|.ffffff]]]` followed by an
optional UTC offset, validating clock ranges. -/
def parseTimeAndTz (l : List Char) : Option (Nat × Nat × Nat) :=
  let finish := fun (hh mm ss : Nat) (rest : List Char) =>
    if hh ≤ 23 ∧ mm ≤ 59 ∧ ss ≤ 59 ∧ parseTz rest = true then some (hh, mm, ss)
    else none
  match parse2 l with
  | none => none
  | some (hh, r1) =>
    match r1 with
    | ':' :: r2 =>
      match parse2 r2 with
      | none => none
      | some (mm, r3) =>
        match r3 with
        | ':' :: r4 =>
          match parse2 r4 with
          | none => none
          | some (ss, r5) =>
            match parseFrac r5 with
            | some r6 => finish hh mm ss r6
            | none => finish hh mm ss r5
        | _ => finish hh mm 0 r3
    | _ => finish hh 0 0 r1

/-- Gregorian month length, with leap-year rule. -/
def daysInMonth (y m : Nat) : Nat :=
  if m = 2 then (if (y % 4 = 0 ∧ y % 100 ≠ 0) ∨ y % 400 = 0 then 29 else 28)
  else if m = 4 ∨ m = 6 ∨ m = 9 ∨ m = 11 then 30 else 31

/-- Modelled from the spec and CPython documentation: `datetime.fromisoformat`
(the `datetime` module is outside this repository).  Accepts
`YYYY-MM-DD[<sep>HH[:MM[:SS[.fff|.ffffff]]][±HH:MM[:SS[.ffffff]]]]` and
returns `none` (a raised `ValueError`) otherwise. -/
def fromisoformat (s : String) : Option PyDateTime :=
  match parse4 s.data with
  | some (y, '-' :: r1) =>
    (match parse2 r1 with
     | some (m, '-' :: r2) =>
       (match parse2 r2 with
        | some (d, rest) =>
          if 1 ≤ y ∧ 1 ≤ m ∧ m ≤ 12 ∧ 1 ≤ d ∧ d ≤ daysInMonth y m then
            match rest with
            | [] => some ⟨y, m, d, 0, 0, 0⟩
            | _sep :: tcs =>
              if tcs.isEmpty then some ⟨y, m, d, 0, 0, 0⟩
              else
                match parseTimeAndTz tcs with
                | some (hh, mm, ss) => some ⟨y, m, d, hh, mm, ss⟩
                | none => none
          else none
        | _ => none)
     | _ => none)
  | _ => none

def pad2 (n : Nat) : String := if n < 10 then "0" ++ toString n else toString n

def pad4 (n : Nat) : String :=
  if n < 10 then "000" ++ toString n
  else if n < 100 then "00" ++ toString n
  else if n < 1000 then "0" ++ toString n
  else toString n

/-- Model of `dt_obj.strftime("%Y-%m-%d %H:%M")`. -/
def strftimeYmdHM (dt : PyDateTime) : String :=
  pad4 dt.year ++ "-" ++ pad2 dt.month ++ "-" ++ pad2 dt.day ++ " "
    ++ pad2 dt.hour ++ ":" ++ pad2 dt.minute

/-! ### Data model (scraper.py) -/

def BASE_URL : String := "https://techcrunch.com"

/-- The `Article` dataclass.  `scraped_at` is filled with the wall-clock time
at construction; it is supplied explicitly by the caller in this embedding. -/
structure Article where
  source : String
  title : String
  url : String
  author : String
  publish_time : String
  hash : String
  category : Option String
  excerpt : Option String
  scraped_at : String
deriving DecidableEq, Repr

/-- Result of `card.find('a', class_='loop-card__title-link')`: the element's
text content and its `href` attribute (when present). -/
structure TitleTag where
  text : String
  href : Option String
deriving DecidableEq, Repr

/-- Result of `card.find('a', class_='loop-card__author')`. -/
structure AuthorTag where
  text : String
deriving DecidableEq, Repr

/-- Result of `card.find('time')`: its `datetime` attribute when
`has_attr('datetime')`. -/
structure TimeTag where
  datetime : Option String
deriving DecidableEq, Repr

/-- A card element (`div.loop-card__content`), abstracted to the results of
the three `find` calls `parse_article_from_card` performs on it (`none` when
the corresponding element is absent). -/
structure Card where
  title_link : Option TitleTag
  author_link : Option AuthorTag
  time_tag : Option TimeTag
deriving DecidableEq, Repr

/-- A fetched document, abstracted to
`soup.find_all('div', class_='loop-card__content')` in document order. -/
structure Soup where
  cards : List Card
deriving DecidableEq, Repr

/-! ### parse_article_from_card -/

/-- Model of `title_tag.get('href', '')`: the `href` attribute, defaulting to `''`. -/
def href_of (tl : TitleTag) : String :=
  match tl.href with
  | some h => h
  | none => ""

/-- URL resolution step of `parse_article_from_card`:
`if url and not url.startswith('http'): url = BASE_URL+url if url.startswith('/') else BASE_URL+'/'+url`. -/
def resolve_url (url : String) : String :=
  if url ≠ "" ∧ pyStartsWith url "http" = false then
    (if pyStartsWith url "/" then BASE_URL ++ url else BASE_URL ++ "/" ++ url)
  else url

/-- Author extraction: `clean_text(author_tag.text) if author_tag else 'Unknown'`. -/
def author_of (card : Card) : String :=
  match card.author_link with
  | some t => clean_text t.text
  | none => "Unknown"

/-- Model of `raw_time = time_tag.get('datetime') if time_tag and time_tag.has_attr('datetime') else ''`. -/
def raw_time_of (card : Card) : String :=
  match card.time_tag with
  | some tt =>
      (match tt.datetime with
       | some v => v
       | none => "")
  | none => ""

/-- Publish-time extraction: ISO parse of `raw_time.replace('Z', '+00:00')`
reformatted as `%Y-%m-%d %H:%M`; on `ValueError` fall back to
`raw_time[:19] if raw_time else 'Unknown'`; `'Unknown'` when there is no
datetime attribute. -/
def publish_time_of (raw_time : String) : String :=
  if raw_time ≠ "" then
    match fromisoformat (pyReplaceZ raw_time) with
    | some dt_obj => strftimeYmdHM dt_obj
    | none => if raw_time ≠ "" then pySlice raw_time 19 else "Unknown"
  else "Unknown"

/-- Model of `TechCrunchScraper.parse_article_from_card`.  Returns `none` when the
title link is absent or its normalized text is empty; otherwise builds the
`Article` exactly as the source does.  `now` is the wall-clock timestamp
recorded in `scraped_at`. -/
def parse_article_from_card (now : String) (card : Card) : Option Article :=
  match card.title_link with
  | none => none
  | some title_tag =>
    let title := clean_text title_tag.text
    if title = "" then none
    else
      some
        { source := "TechCrunch"
          title := title
          url := resolve_url (href_of title_tag)
          author := author_of card
          publish_time := publish_time_of (raw_time_of card)
          hash := get_hash title
          category := none
          excerpt := none
          scraped_at := now }

/-! ### Fetching and the page loop -/

/-- Outcome of one attempted HTTP exchange for a URL: either a response
(status code, plus the parsed document for its body) or a raised
transport/parse exception with its message. -/
inductive NetOutcome where
  | status (code : Nat) (doc : Soup)
  | exc (msg : String)

/-- Model of `TechCrunchScraper.fetch_page`: returns the parsed document on HTTP 200;
on any other status appends `"Failed to fetch <url>: HTTP <status>"` to the
error log and returns `None`; on an exception appends
`"Exception while fetching <url>: <message>"` and returns `None`.  The
function is total: no exception escapes to the caller. -/
def fetch_page (net : String → NetOutcome) (url : String) (errors : List String) :
    Option Soup × List String :=
  match net url with
  | NetOutcome.status code doc =>
      if code = 200 then (some doc, errors)
      else (none, errors ++ ["Failed to fetch " ++ url ++ ": HTTP " ++ toString code])
  | NetOutcome.exc msg =>
      (none, errors ++ ["Exception while fetching " ++ url ++ ": " ++ msg])

/-- Page-URL computation in `scrape_page`:
`BASE_URL` for page 1, else `f"{BASE_URL}/page/{page_num}/"`. -/
def page_url (page_num : Nat) : String :=
  if page_num = 1 then BASE_URL
  else BASE_URL ++ "/page/" ++ toString page_num ++ "/"

/-- Model of `TechCrunchScraper.scrape_page`: fetch the page; on failure yield `[]`,
otherwise parse every card, keeping the successfully parsed articles in card
order.  Returns the articles together with the updated error log. -/
def scrape_page (net : String → NetOutcome) (now : String) (page_num : Nat)
    (errors : List String) : List Article × List String :=
  match fetch_page net (page_url page_num) errors with
  | (none, errs) => ([], errs)
  | (some soup, errs) => (soup.cards.filterMap (parse_article_from_card now), errs)

/-- The articles `scrape_page` yields for a page (independent of the incoming
error log, which it only appends to). -/
def page_articles (net : String → NetOutcome) (now : String) (p : Nat) : List Article :=
  (scrape_page net now p []).1

/-- Result of a whole scraping session: the accumulated articles, the error
log, and (as the explicit trace of the loop's side effects) the page numbers
that were actually fetched, in order. -/
structure ScrapeResult where
  articles : List Article
  errors : List String
  fetched : List Nat
deriving DecidableEq, Repr

/-- The `for page_num in range(1, max_pages+1)` loop body of
`scrape_all_pages`: extend the accumulator with the page's articles, then
`break` if that page yielded none.  (The inter-page `random_delay()` does not
affect any modelled state.) -/
def scrapeGo (net : String → NetOutcome) (now : String) :
    List Nat → List Article → List String → ScrapeResult
  | [], acc, errs => ⟨acc, errs, []⟩
  | p :: rest, acc, errs =>
      let pr := scrape_page net now p errs
      if pr.1.isEmpty then ⟨acc ++ pr.1, pr.2, [p]⟩
      else
        let r := scrapeGo net now rest (acc ++ pr.1) pr.2
        ⟨r.articles, r.errors, p :: r.fetched⟩

/-- Model of `TechCrunchScraper.scrape_all_pages`.  `max_pages` is a Python `int`
(possibly non-positive); `range(1, max_pages+1)` is `List.range' 1
max_pages.toNat`.  `errs` is the error log at entry (`self.errors`). -/
def scrape_all_pages (net : String → NetOutcome) (now : String) (max_pages : Int)
    (errs : List String) : ScrapeResult :=
  scrapeGo net now (List.range' 1 max_pages.toNat) [] errs

/-- How many card elements the network offers on page `p` (zero when the
fetch does not succeed); articles per page never exceed this. -/
def cards_count (net : String → NetOutcome) (p : Nat) : Nat :=
  match net (page_url p) with
  | NetOutcome.status code doc => if code = 200 then doc.cards.length else 0
  | NetOutcome.exc _ => 0

/-! ### Concrete fixtures used to instantiate the theorems -/

def articleDflt : Article := ⟨"", "", "", "", "", "", none, none, ""⟩

/-- A card whose title link has text but no `href` attribute. -/
def cardNoHref : Card := ⟨some ⟨"Launch day", none⟩, none, none⟩

/-- A card whose author element is present but has whitespace-only text. -/
def cardBlankAuthor : Card := ⟨some ⟨"Launch day", some "/x"⟩, some ⟨"  "⟩, none⟩

/-- A fully populated, well-formed card. -/
def cardFull : Card :=
  ⟨some ⟨" Hello   World ", some "/2024/01/01/foo"⟩, some ⟨"Jane Doe"⟩,
   some ⟨some "2024-01-15T10:30:00Z"⟩⟩

/-- Two cards whose title texts normalize to the same string. -/
def cardHashA : Card := ⟨some ⟨"Hello   World", some "/a"⟩, none, none⟩

def cardHashB : Card := ⟨some ⟨" Hello World ", some "/b"⟩, none, none⟩

def parsedHashA : Article :=
  (parse_article_from_card "2024-01-01 00:00:00" cardHashA).getD articleDflt

def parsedHashB : Article :=
  (parse_article_from_card "2024-01-02 00:00:00" cardHashB).getD articleDflt

/-- A network where every request yields HTTP 404. -/
def netW404 : String → NetOutcome := fun _ => NetOutcome.status 404 ⟨[]⟩

/-- A network with one good card on page 1 and no cards on any later page. -/
def netOnePage : String → NetOutcome := fun url =>
  if url = page_url 1 then NetOutcome.status 200 ⟨[cardFull]⟩
  else NetOutcome.status 200 ⟨[]⟩

/-- A network offering the same two good cards on every page. -/
def netTwoCards : String → NetOutcome := fun _ =>
  NetOutcome.status 200 ⟨[cardFull, cardHashA]⟩

/-- A well-formed token: non-empty and whitespace-free. -/
def goodToken (t : List Char) : Prop := t ≠ [] ∧ ∀ c ∈ t, pyIsSpace c = false

/-! ### Model validation on known values -/

example : clean_text "  a   b\tc  " = "a b c" := by decide

example : get_hash "" = "d41d8cd98f00b204e9800998ecf8427e" := by decide

example : get_hash "abc" = "900150983cd24fb0d6963f7d28e17f72" := by decide

example : get_hash "Hello World" = "b10a8db164e0754105b7a99be72e3fe5" := by decide

example :
    get_hash (String.mk (List.replicate 100 'a'))
      = "36a92cc94a9e0fa21f625f8bfb007adf" := by decide

example :
    fromisoformat "2024-01-15T10:30:00+00:00" = some ⟨2024, 1, 15, 10, 30, 0⟩ := by
  decide

example : fromisoformat "not-a-date-xxxxxxxxxx" = none := by decide

example : fromisoformat "2024-02-30T10:30:00+00:00" = none := by decide

/-! ### Tokenization lemmas for `clean_text` -/

lemma tokensAux_all_space :
    ∀ (ws : List Char), (∀ c ∈ ws, pyIsSpace c = true) →
      ∀ cur, tokensAux ws cur = tokensAux [] cur := by
  intro ws
  induction ws with
  | nil => intro _ cur; rfl
  | cons w ws ih =>
    intro h cur
    have hw : pyIsSpace w = true := h w (List.mem_cons_self w ws)
    have hws' : ∀ c ∈ ws, pyIsSpace c = true := fun c hc => h c (List.mem_cons_of_mem w hc)
    have hws0 : tokensAux ws [] = [] := by simpa [tokensAux] using ih hws' []
    by_cases hc : cur.isEmpty
    · simp [tokensAux, hw, hc, hws0]
    · simp [tokensAux, hw, hc, hws0]

lemma tokensAux_append_space (ws : List Char) (hws : ∀ c ∈ ws, pyIsSpace c = true) :
    ∀ (l cur : List Char), tokensAux (l ++ ws) cur = tokensAux l cur := by
  intro l
  induction l with
  | nil =>
    intro cur
    simpa [tokensAux] using tokensAux_all_space ws hws cur
  | cons c cs ih =>
    intro cur
    by_cases hsp : pyIsSpace c = true
    · simp [tokensAux, hsp, ih]
    · simp [tokensAux, hsp, ih]

lemma tokensAux_space_first (ws : List Char) (hws : ∀ c ∈ ws, pyIsSpace c = true) :
    ∀ (l : List Char), tokensAux (ws ++ l) [] = tokensAux l [] := by
  induction ws with
  | nil => intro l; rfl
  | cons w ws ih =>
    intro l
    have hw : pyIsSpace w = true := hws w (List.mem_cons_self w ws)
    have hws' : ∀ c ∈ ws, pyIsSpace c = true := fun c hc => hws c (List.mem_cons_of_mem w hc)
    simp [tokensAux, hw, ih hws' l]

lemma tokensAux_nonspace :
    ∀ (t : List Char), (∀ c ∈ t, pyIsSpace c = false) →
      ∀ (l cur : List Char), tokensAux (t ++ l) cur = tokensAux l (cur ++ t) := by
  intro t
  induction t with
  | nil => intro _ l cur; simp
  | cons c cs ih =>
    intro h l cur
    have hc : pyIsSpace c = false := h c (List.mem_cons_self c cs)
    have hcs : ∀ x ∈ cs, pyIsSpace x = false := fun x hx => h x (List.mem_cons_of_mem c hx)
    calc tokensAux ((c :: cs) ++ l) cur
        = tokensAux (cs ++ l) (cur ++ [c]) := by simp [tokensAux, hc]
      _ = tokensAux l ((cur ++ [c]) ++ cs) := ih hcs l (cur ++ [c])
      _ = tokensAux l (cur ++ c :: cs) := by rw [List.append_assoc, List.singleton_append]

lemma tokensAux_good :
    ∀ (l cur : List Char), (∀ c ∈ cur, pyIsSpace c = false) →
      ∀ t ∈ tokensAux l cur, goodToken t := by
  intro l
  induction l with
  | nil =>
    intro cur hcur t ht
    by_cases hc : cur.isEmpty
    · simp [tokensAux, hc] at ht
    · simp [tokensAux, hc] at ht
      subst ht
      exact ⟨fun h => by simp [h] at hc, hcur⟩
  | cons c cs ih =>
    intro cur hcur t ht
    by_cases hsp : pyIsSpace c = true
    · simp only [tokensAux, hsp, if_true] at ht
      by_cases hc : cur.isEmpty
      · rw [if_pos hc] at ht
        exact ih [] (by simp) t ht
      · rw [if_neg hc] at ht
        rcases List.mem_cons.1 ht with rfl | ht'
        · exact ⟨fun h => by simp [h] at hc, hcur⟩
        · exact ih [] (by simp) t ht'
    · simp only [tokensAux, hsp, if_false] at ht
      refine ih (cur ++ [c]) ?_ t ht
      intro x hx
      rcases List.mem_append.1 hx with hx | hx
      · exact hcur x hx
      · rw [List.mem_singleton] at hx
        subst hx
        simpa using hsp

lemma pySplit_intercalate :
    ∀ (ts : List (List Char)), (∀ t ∈ ts, goodToken t) →
      pySplit (List.intercalate [' '] ts) = ts := by
  intro ts
  induction ts with
  | nil => intro _; rfl
  | cons t ts ih =>
    intro h
    have ht : goodToken t := h t (List.mem_cons_self t ts)
    have hts : ∀ u ∈ ts, goodToken u := fun u hu => h u (List.mem_cons_of_mem t hu)
    cases ts with
    | nil =>
      have : List.intercalate [' '] [t] = t := by
        simp [List.intercalate]
      rw [this]
      unfold pySplit
      have := tokensAux_nonspace t ht.2 [] []
      simp only [List.append_nil, List.nil_append] at this
      rw [this]
      simp [tokensAux, ht.1]
    | cons t2 ts2 =>
      have hexp : List.intercalate [' '] (t :: t2 :: ts2)
          = t ++ ' ' :: List.intercalate [' '] (t2 :: ts2) := by
        simp [List.intercalate, List.intersperse_cons_cons]
      rw [hexp]
      unfold pySplit
      have h1 := tokensAux_nonspace t ht.2 (' ' :: List.intercalate [' '] (t2 :: ts2)) []
      simp only [List.nil_append] at h1
      rw [h1]
      have hsp : pyIsSpace ' ' = true := by decide
      have ht1 : t.isEmpty = false := by
        cases t with
        | nil => exact absurd rfl ht.1
        | cons a b => rfl
      simp only [tokensAux, hsp, if_true, ht1, if_false]
      exact congrArg (t :: ·) (ih hts)

lemma pySplit_pyStrip (l : List Char) : pySplit (pyStrip l) = pySplit l := by
  have p := fun c => pyIsSpace c
  set m := l.dropWhile fun c => pyIsSpace c with hm
  have hl : (l.takeWhile fun c => pyIsSpace c) ++ m = l :=
    List.takeWhile_append_dropWhile _ _
  have htw : ∀ c ∈ l.takeWhile fun c => pyIsSpace c, pyIsSpace c = true := fun c hc =>
    List.mem_takeWhile_imp hc
  have hrev : (m.reverse.dropWhile fun c => pyIsSpace c).reverse
      ++ (m.reverse.takeWhile fun c => pyIsSpace c).reverse = m := by
    rw [← List.reverse_append, List.takeWhile_append_dropWhile, List.reverse_reverse]
  have htw2 : ∀ c ∈ (m.reverse.takeWhile fun c => pyIsSpace c).reverse, pyIsSpace c = true := by
    intro c hc
    rw [List.mem_reverse] at hc
    exact List.mem_takeWhile_imp hc
  show tokensAux (pyStrip l) [] = tokensAux l []
  calc tokensAux (pyStrip l) []
      = tokensAux ((m.reverse.dropWhile fun c => pyIsSpace c).reverse
          ++ (m.reverse.takeWhile fun c => pyIsSpace c).reverse) [] := by
        rw [tokensAux_append_space _ htw2]
        rfl
    _ = tokensAux m [] := by rw [hrev]
    _ = tokensAux ((l.takeWhile fun c => pyIsSpace c) ++ m) [] := by
        rw [tokensAux_space_first _ htw]
    _ = tokensAux l [] := by rw [hl]

lemma clean_text_eq (s : String) :
    clean_text s = String.mk (List.intercalate [' '] (pySplit s.data)) := by
  by_cases h : s = ""
  · subst h; rfl
  · unfold clean_text
    rw [if_neg h, pySplit_pyStrip]

lemma clean_text_data (s : String) :
    (clean_text s).data = List.intercalate [' '] (pySplit s.data) := by
  rw [clean_text_eq]

lemma chain_of_nonspace (l : List Char) (h : ∀ c ∈ l, pyIsSpace c = false) :
    List.Chain' (fun a b => ¬(a = ' ' ∧ b = ' ')) l := by
  induction l with
  | nil => exact List.chain'_nil
  | cons a l ih =>
    rw [List.chain'_cons']
    refine ⟨fun y _ hy => ?_, ih fun c hc => h c (List.mem_cons_of_mem a hc)⟩
    have ha : pyIsSpace a = false := h a (List.mem_cons_self a l)
    rw [hy.1] at ha
    exact absurd ha (by decide)

lemma intercalate_good (ts : List (List Char)) (h : ∀ t ∈ ts, goodToken t) :
    (∀ c, (List.intercalate [' '] ts).head? = some c → pyIsSpace c = false) ∧
    (∀ c, (List.intercalate [' '] ts).getLast? = some c → pyIsSpace c = false) ∧
    List.Chain' (fun a b => ¬(a = ' ' ∧ b = ' ')) (List.intercalate [' '] ts) := by
  induction ts with
  | nil => exact ⟨fun c hc => by simp [List.intercalate] at hc,
      fun c hc => by simp [List.intercalate] at hc, by simp [List.intercalate]⟩
  | cons t ts ih =>
    have ht : goodToken t := h t (List.mem_cons_self t ts)
    have hts : ∀ u ∈ ts, goodToken u := fun u hu => h u (List.mem_cons_of_mem t hu)
    cases ts with
    | nil =>
      have hexp : List.intercalate [' '] [t] = t := by simp [List.intercalate]
      rw [hexp]
      refine ⟨fun c hc => ?_, fun c hc => ?_, chain_of_nonspace t ht.2⟩
      · exact ht.2 c (List.mem_of_mem_head? hc)
      · rcases List.mem_getLast?_eq_getLast hc with ⟨hne, rfl⟩
        exact ht.2 _ (List.getLast_mem hne)
    | cons t2 ts2 =>
      obtain ⟨ihh, ihl, ihc⟩ := ih hts
      have hexp : List.intercalate [' '] (t :: t2 :: ts2)
          = t ++ ' ' :: List.intercalate [' '] (t2 :: ts2) := by
        simp [List.intercalate, List.intersperse_cons_cons]
      have hne2 : List.intercalate [' '] (t2 :: ts2) ≠ [] := by
        have ht2 : goodToken t2 := hts t2 (List.mem_cons_self t2 ts2)
        cases ts2 with
        | nil =>
          simpa [List.intercalate] using ht2.1
        | cons t3 ts3 =>
          have : List.intercalate [' '] (t2 :: t3 :: ts3)
              = t2 ++ ' ' :: List.intercalate [' '] (t3 :: ts3) := by
            simp [List.intercalate, List.intersperse_cons_cons]
          rw [this]
          cases t2 with
          | nil => exact absurd rfl ht2.1
          | cons a b => simp
      rw [hexp]
      obtain ⟨a, t', rfl⟩ : ∃ a t', t = a :: t' := by
        cases t with
        | nil => exact absurd rfl ht.1
        | cons a t' => exact ⟨a, t', rfl⟩
      refine ⟨fun c hc => ?_, fun c hc => ?_, ?_⟩
      · rw [List.cons_append, List.head?_cons, Option.some.injEq] at hc
        rw [← hc]
        exact ht.2 a (List.mem_cons_self a t')
      · rw [List.getLast?_append_cons] at hc
        have h2 : (' ' :: List.intercalate [' '] (t2 :: ts2)).getLast?
            = (List.intercalate [' '] (t2 :: ts2)).getLast? := by
          simpa using List.getLast?_append_of_ne_nil [' '] hne2
        rw [h2] at hc
        exact ihl c hc
      · rw [List.chain'_append]
        refine ⟨chain_of_nonspace _ ht.2, ?_, ?_⟩
        · rw [List.chain'_cons']
          refine ⟨fun y hy hcontra => ?_, ihc⟩
          have : pyIsSpace y = false := ihh y hy
          rw [hcontra.2] at this
          exact absurd this (by decide)
        · intro x hx y hy hcontra
          have hxm : x ∈ a :: t' := List.mem_of_mem_getLast? hx
          have : pyIsSpace x = false := ht.2 x hxm
          rw [hcontra.1] at this
          exact absurd this (by decide)

/-! ### Claim theorems -/

/-- C10.  `clean_text` is idempotent, and its output has no leading or
trailing whitespace and never contains two consecutive space characters. -/
theorem C10_clean_text_idempotent (s : String) :
    clean_text (clean_text s) = clean_text s ∧
    (∀ c, (clean_text s).data.head? = some c → pyIsSpace c = false) ∧
    (∀ c, (clean_text s).data.getLast? = some c → pyIsSpace c = false) ∧
    List.Chain' (fun a b => ¬(a = ' ' ∧ b = ' ')) (clean_text s).data := by
  have hgood : ∀ t ∈ pySplit s.data, goodToken t :=
    tokensAux_good s.data [] (by intro c hc; cases hc)
  have hdata := clean_text_data s
  obtain ⟨hh, hl, hc⟩ := intercalate_good (pySplit s.data) hgood
  refine ⟨?_, ?_, ?_, ?_⟩
  · rw [clean_text_eq (clean_text s), hdata, pySplit_intercalate _ hgood, ← clean_text_eq s]
  · intro c hcc; exact hh c (by rwa [hdata] at hcc)
  · intro c hcc; exact hl c (by rwa [hdata] at hcc)
  · rwa [hdata]

/-- Witness for C10 at a concrete input. -/
theorem C10_witness :
    clean_text (clean_text "  Hello   scraper\tworld ") = clean_text "  Hello   scraper\tworld " :=
  (C10_clean_text_idempotent "  Hello   scraper\tworld ").1

/-! ### String non-emptiness helpers -/

lemma append_ne_empty_left (s t : String) (h : s ≠ "") : s ++ t ≠ "" := by
  intro hc
  apply h
  rw [String.ext_iff] at hc ⊢
  rw [String.data_append] at hc
  have h0 : ("" : String).data = [] := rfl
  rw [h0] at hc ⊢
  exact (List.append_eq_nil.1 hc).1

lemma append_ne_empty_right (s t : String) (h : t ≠ "") : s ++ t ≠ "" := by
  intro hc
  apply h
  rw [String.ext_iff] at hc ⊢
  rw [String.data_append] at hc
  have h0 : ("" : String).data = [] := rfl
  rw [h0] at hc ⊢
  exact (List.append_eq_nil.1 hc).2

lemma pySlice_ne_empty (s : String) (h : s ≠ "") (n : Nat) (hn : n ≠ 0) :
    pySlice s n ≠ "" := by
  intro hc
  rw [String.ext_iff] at hc
  have hd : (pySlice s n).data = s.data.take n := rfl
  have h0 : ("" : String).data = [] := rfl
  rw [hd, h0] at hc
  cases hs : s.data with
  | nil => exact h (String.ext_iff.2 hs)
  | cons c l =>
    rw [hs] at hc
    cases n with
    | zero => exact hn rfl
    | succ m => simp [List.take_succ_cons] at hc

lemma strftime_ne_empty (dt : PyDateTime) : strftimeYmdHM dt ≠ "" := by
  unfold strftimeYmdHM
  exact append_ne_empty_left _ _ (append_ne_empty_right _ _ (by decide))

lemma publish_time_of_ne_empty (raw : String) : publish_time_of raw ≠ "" := by
  unfold publish_time_of
  by_cases hr : raw ≠ ""
  · rw [if_pos hr]
    cases hiso : fromisoformat (pyReplaceZ raw) with
    | some dt => exact strftime_ne_empty dt
    | none =>
      rw [if_pos hr]
      exact pySlice_ne_empty raw hr 19 (by decide)
  · rw [if_neg hr]
    decide

/-! ### Characterization of `parse_article_from_card` -/

lemma parse_eq (now : String) (card : Card) (tl : TitleTag)
    (htl : card.title_link = some tl) (ht : clean_text tl.text ≠ "") :
    parse_article_from_card now card = some
      { source := "TechCrunch"
        title := clean_text tl.text
        url := resolve_url (href_of tl)
        author := author_of card
        publish_time := publish_time_of (raw_time_of card)
        hash := get_hash (clean_text tl.text)
        category := none
        excerpt := none
        scraped_at := now } := by
  unfold parse_article_from_card
  rw [htl]
  simp [ht]

lemma parse_some_inv (now : String) (card : Card) (a : Article)
    (h : parse_article_from_card now card = some a) :
    ∃ tl, card.title_link = some tl ∧ clean_text tl.text ≠ "" ∧
      a = { source := "TechCrunch"
            title := clean_text tl.text
            url := resolve_url (href_of tl)
            author := author_of card
            publish_time := publish_time_of (raw_time_of card)
            hash := get_hash (clean_text tl.text)
            category := none
            excerpt := none
            scraped_at := now } := by
  cases htl : card.title_link with
  | none => simp [parse_article_from_card, htl] at h
  | some tl =>
    by_cases ht : clean_text tl.text = ""
    · exfalso
      unfold parse_article_from_card at h
      rw [htl] at h
      simp [ht] at h
    · refine ⟨tl, rfl, ht, ?_⟩
      have hp := parse_eq now card tl htl ht
      rw [hp] at h
      exact (Option.some_inj.1 h).symm

lemma resolve_url_ne_empty (hr : String) (h : hr ≠ "") : resolve_url hr ≠ "" := by
  unfold resolve_url
  by_cases h1 : hr ≠ "" ∧ pyStartsWith hr "http" = false
  · rw [if_pos h1]
    by_cases h2 : pyStartsWith hr "/" = true
    · rw [if_pos h2]
      exact append_ne_empty_left _ _ (by decide)
    · rw [if_neg h2]
      exact append_ne_empty_left _ _ (append_ne_empty_left _ _ (by decide))
  · rw [if_neg h1]
    exact h

lemma slash_facts {s : String} (h : pyStartsWith s "/" = true) :
    s ≠ "" ∧ pyStartsWith s "http" = false := by
  rw [pyStartsWith, decide_eq_true_eq] at h
  cases hs : s.data with
  | nil =>
    rw [hs] at h
    simp at h
  | cons c rest =>
    rw [hs] at h
    have hone : ("/" : String).data = ['/'] := rfl
    rw [hone] at h
    have hc : c = '/' := by
      have h' := h
      rw [show (['/'] : List Char).length = 1 from rfl, List.take_succ_cons] at h'
      injection h'
    subst hc
    constructor
    · intro he
      rw [he] at hs
      exact List.noConfusion (show ([] : List Char) = '/' :: rest from hs)
    · rw [pyStartsWith, decide_eq_false_iff_not]
      intro hcontra
      rw [hs] at hcontra
      have hhttp : ("http" : String).data = ['h', 't', 't', 'p'] := rfl
      rw [hhttp] at hcontra
      rw [show (['h', 't', 't', 'p'] : List Char).length = 4 from rfl,
        List.take_succ_cons] at hcontra
      injection hcontra with h1 h2
      exact absurd h1 (by decide)

/-! ### Claims about parse_article_from_card and fetch_page -/

/-- C2 counterexample: a card whose title link has no `href` attribute is
parsed into an emitted Article whose `url` is the empty string, so the claim
"every returned Article has a non-empty url" is false of the code. -/
theorem C2_counterexample :
    (parse_article_from_card "2024-01-01 00:00:00" cardNoHref).isSome = true ∧
    (parse_article_from_card "2024-01-01 00:00:00" cardNoHref).map Article.url
      = some "" := by
  constructor
  · decide
  · decide

/-- C2 (amended): every Article emitted by `parse_article_from_card` has a
non-empty title (cards with no title link or an empty normalized title are
dropped by returning `none`, never emitted); and whenever the card's `href`
attribute is present and non-empty, the emitted `url` is also non-empty.
(An absent or empty `href` yields an Article whose `url` is `""`.) -/
theorem C2_emitted_fields (now : String) (card : Card) (a : Article)
    (h : parse_article_from_card now card = some a) :
    a.title ≠ "" ∧
    (∀ tl, card.title_link = some tl → ∀ hr, tl.href = some hr → hr ≠ "" →
      a.url ≠ "") := by
  obtain ⟨tl, htl, ht, rfl⟩ := parse_some_inv now card a h
  refine ⟨ht, ?_⟩
  intro tl' htl' hr hhr hne
  rw [htl] at htl'
  injection htl' with he
  subst he
  have hH : href_of tl = hr := by simp [href_of, hhr]
  show resolve_url (href_of tl) ≠ ""
  rw [hH]
  exact resolve_url_ne_empty hr hne

/-- Witness for C2 (amended) at a concrete card. -/
theorem C2_witness :
    ((parse_article_from_card "2024-01-01 00:00:00" cardFull).getD articleDflt).title
      ≠ "" :=
  (C2_emitted_fields "2024-01-01 00:00:00" cardFull _ (by decide)).1

/-- C3 counterexample: a card whose author element is present but whose text
normalizes to the empty string yields an emitted Article with `author = ""`,
so "the author field is never the empty string" is false of the code. -/
theorem C3_counterexample :
    (parse_article_from_card "2024-01-01 00:00:00" cardBlankAuthor).isSome = true ∧
    (parse_article_from_card "2024-01-01 00:00:00" cardBlankAuthor).map Article.author
      = some "" := by
  constructor
  · decide
  · decide

/-- C3 (amended): for every emitted Article, `publish_time` is never the
empty string, and an absent author element or absent datetime attribute
yields exactly the sentinel `"Unknown"`; but when the author element is
present, `author` is the normalization of its text, which is the empty
string if that text is empty or whitespace-only. -/
theorem C3_sentinel_fields (now : String) (card : Card) (a : Article)
    (h : parse_article_from_card now card = some a) :
    a.publish_time ≠ "" ∧
    (card.author_link = none → a.author = "Unknown") ∧
    (∀ au, card.author_link = some au → a.author = clean_text au.text) ∧
    (raw_time_of card = "" → a.publish_time = "Unknown") := by
  obtain ⟨tl, htl, ht, rfl⟩ := parse_some_inv now card a h
  refine ⟨publish_time_of_ne_empty _, ?_, ?_, ?_⟩
  · intro hau
    show author_of card = "Unknown"
    simp [author_of, hau]
  · intro au hau
    show author_of card = clean_text au.text
    simp [author_of, hau]
  · intro hraw
    show publish_time_of (raw_time_of card) = "Unknown"
    rw [hraw]
    decide

/-- Witness for C3 (amended) at a concrete card. -/
theorem C3_witness :
    ((parse_article_from_card "2024-01-01 00:00:00" cardNoHref).getD articleDflt).publish_time
      ≠ "" :=
  (C3_sentinel_fields "2024-01-01 00:00:00" cardNoHref _ (by decide)).1

/-- C4: a datetime attribute `"2024-01-15T10:30:00Z"` is emitted as
`publish_time = "2024-01-15 10:30"`; a malformed attribute
`"not-a-date-xxxxxxxxxx"` is emitted verbatim as its first 19 characters
`"not-a-date-xxxxxxxx"`. -/
theorem C4_publish_time_format (now : String) (card : Card) (tl : TitleTag)
    (htl : card.title_link = some tl) (ht : clean_text tl.text ≠ "") :
    (card.time_tag = some ⟨some "2024-01-15T10:30:00Z"⟩ →
      (parse_article_from_card now card).map Article.publish_time
        = some "2024-01-15 10:30") ∧
    (card.time_tag = some ⟨some "not-a-date-xxxxxxxxxx"⟩ →
      (parse_article_from_card now card).map Article.publish_time
        = some (pySlice "not-a-date-xxxxxxxxxx" 19) ∧
      pySlice "not-a-date-xxxxxxxxxx" 19 = "not-a-date-xxxxxxxx") := by
  have hp := parse_eq now card tl htl ht
  constructor
  · intro htt
    rw [hp]
    have hraw : raw_time_of card = "2024-01-15T10:30:00Z" := by
      simp [raw_time_of, htt]
    simp only [Option.map_some']
    rw [hraw]
    decide
  · intro htt
    have hraw : raw_time_of card = "not-a-date-xxxxxxxxxx" := by
      simp [raw_time_of, htt]
    refine ⟨?_, by decide⟩
    rw [hp]
    simp only [Option.map_some']
    rw [hraw]
    decide

/-- Witness for C4 at a concrete card. -/
theorem C4_witness :
    (parse_article_from_card "2024-01-01 00:00:00" cardFull).map Article.publish_time
      = some "2024-01-15 10:30" :=
  (C4_publish_time_format "2024-01-01 00:00:00" cardFull ⟨" Hello   World ", some "/2024/01/01/foo"⟩
    (by decide) (by decide)).1 (by decide)

/-- C5: an href that is relative (non-empty, not starting with `"http"`) is
resolved against the fixed base origin — by direct concatenation when it
starts with `"/"`, and with an inserted `"/"` separator otherwise — while an
absolute href (starting with `"http"`) is left unchanged. -/
theorem C5_url_resolution (now : String) (card : Card) (tl : TitleTag) (hr : String)
    (htl : card.title_link = some tl) (hhr : tl.href = some hr)
    (ht : clean_text tl.text ≠ "") :
    (pyStartsWith hr "/" = true →
      (parse_article_from_card now card).map Article.url = some (BASE_URL ++ hr)) ∧
    (hr ≠ "" → pyStartsWith hr "http" = false → pyStartsWith hr "/" = false →
      (parse_article_from_card now card).map Article.url
        = some (BASE_URL ++ "/" ++ hr)) ∧
    (pyStartsWith hr "http" = true →
      (parse_article_from_card now card).map Article.url = some hr) := by
  have hp := parse_eq now card tl htl ht
  have hH : href_of tl = hr := by simp [href_of, hhr]
  refine ⟨fun hs => ?_, fun hne hh hs => ?_, fun hh => ?_⟩
  · obtain ⟨hne, hh⟩ := slash_facts hs
    rw [hp]
    simp only [Option.map_some']
    rw [hH]
    simp [resolve_url, hne, hh, hs]
  · rw [hp]
    simp only [Option.map_some']
    rw [hH]
    simp [resolve_url, hne, hh, hs]
  · rw [hp]
    simp only [Option.map_some']
    rw [hH]
    simp [resolve_url, hh]

/-- Witness for C5 at a concrete card. -/
theorem C5_witness :
    (parse_article_from_card "2024-01-01 00:00:00" cardFull).map Article.url
      = some (BASE_URL ++ "/2024/01/01/foo") :=
  (C5_url_resolution "2024-01-01 00:00:00" cardFull
    ⟨" Hello   World ", some "/2024/01/01/foo"⟩ "/2024/01/01/foo"
    (by decide) (by decide) (by decide)).1 (by decide)

/-- C7: `fetch_page` never raises (it is a total function returning an
optional document): on HTTP 200 it returns the parsed document and appends
nothing to the error log; on any other status it returns `none` and appends
exactly `"Failed to fetch <url>: HTTP <status>"`; on a transport/parse
exception it returns `none` and appends exactly
`"Exception while fetching <url>: <message>"`. -/
theorem C7_fetch_page_spec (net : String → NetOutcome) (url : String)
    (errors : List String) :
    (∀ doc, net url = NetOutcome.status 200 doc →
      fetch_page net url errors = (some doc, errors)) ∧
    (∀ code doc, net url = NetOutcome.status code doc → code ≠ 200 →
      fetch_page net url errors
        = (none, errors ++ ["Failed to fetch " ++ url ++ ": HTTP " ++ toString code])) ∧
    (∀ msg, net url = NetOutcome.exc msg →
      fetch_page net url errors
        = (none, errors ++ ["Exception while fetching " ++ url ++ ": " ++ msg])) := by
  refine ⟨fun doc hnet => ?_, fun code doc hnet hcode => ?_, fun msg hnet => ?_⟩
  · simp [fetch_page, hnet]
  · simp [fetch_page, hnet, hcode]
  · simp [fetch_page, hnet]

/-- Witness for C7: a 404 response produces the exact failure message. -/
theorem C7_witness :
    fetch_page netW404 "https://techcrunch.com" []
      = (none, ["Failed to fetch https://techcrunch.com: HTTP 404"]) :=
  (C7_fetch_page_spec netW404 "https://techcrunch.com" []).2.1 404 ⟨[]⟩ rfl (by decide)

/-- C8: the content hash is a pure function of the (normalized) title — any
two emitted Articles with the same title carry the same hash, across calls
and across runs (`get_hash` is a deterministic MD5 computation). -/
theorem C8_hash_deterministic (now₁ now₂ : String) (c₁ c₂ : Card) (a₁ a₂ : Article)
    (h₁ : parse_article_from_card now₁ c₁ = some a₁)
    (h₂ : parse_article_from_card now₂ c₂ = some a₂)
    (ht : a₁.title = a₂.title) :
    a₁.hash = a₂.hash := by
  obtain ⟨tl₁, htl₁, ht₁, rfl⟩ := parse_some_inv now₁ c₁ a₁ h₁
  obtain ⟨tl₂, htl₂, ht₂, rfl⟩ := parse_some_inv now₂ c₂ a₂ h₂
  exact congrArg get_hash ht

/-- Witness for C8: two cards with differently-spaced but equal-normalizing
titles receive identical hashes. -/
theorem C8_witness : parsedHashA.hash = parsedHashB.hash :=
  C8_hash_deterministic "2024-01-01 00:00:00" "2024-01-02 00:00:00"
    cardHashA cardHashB parsedHashA parsedHashB (by decide) (by decide) (by decide)

/-! ### Lemmas about the page loop -/

lemma scrape_page_fst (net : String → NetOutcome) (now : String) (p : Nat)
    (errs : List String) : (scrape_page net now p errs).1 = page_articles net now p := by
  unfold page_articles scrape_page fetch_page
  cases h : net (page_url p) with
  | status code doc =>
    by_cases hc : code = 200
    · simp [h, hc]
    · simp [h, hc]
  | exc msg => simp [h]

lemma scrapeGo_nil (net : String → NetOutcome) (now : String) (acc : List Article)
    (errs : List String) : scrapeGo net now [] acc errs = ⟨acc, errs, []⟩ := rfl

lemma scrapeGo_cons_empty {net : String → NetOutcome} {now : String} {p : Nat}
    {errs : List String} (rest : List Nat) (acc : List Article)
    (h : (scrape_page net now p errs).1.isEmpty = true) :
    scrapeGo net now (p :: rest) acc errs
      = ⟨acc ++ (scrape_page net now p errs).1, (scrape_page net now p errs).2, [p]⟩ := by
  simp [scrapeGo, h]

lemma scrapeGo_cons_nonempty {net : String → NetOutcome} {now : String} {p : Nat}
    {errs : List String} (rest : List Nat) (acc : List Article)
    (h : (scrape_page net now p errs).1.isEmpty = false) :
    scrapeGo net now (p :: rest) acc errs
      = ⟨(scrapeGo net now rest (acc ++ (scrape_page net now p errs).1)
            (scrape_page net now p errs).2).articles,
         (scrapeGo net now rest (acc ++ (scrape_page net now p errs).1)
            (scrape_page net now p errs).2).errors,
         p :: (scrapeGo net now rest (acc ++ (scrape_page net now p errs).1)
            (scrape_page net now p errs).2).fetched⟩ := by
  simp [scrapeGo, h]

lemma scrapeGo_articles (net : String → NetOutcome) (now : String) :
    ∀ (ps : List Nat) (acc : List Article) (errs : List String),
      (scrapeGo net now ps acc errs).articles
        = acc ++ ((scrapeGo net now ps acc errs).fetched.map (page_articles net now)).flatten := by
  intro ps
  induction ps with
  | nil =>
    intro acc errs
    simp [scrapeGo_nil]
  | cons p rest ih =>
    intro acc errs
    by_cases hemp : (scrape_page net now p errs).1.isEmpty
    · rw [scrapeGo_cons_empty rest acc hemp]
      have hpa : page_articles net now p = [] := by
        rw [← scrape_page_fst net now p errs]
        exact List.isEmpty_iff.1 hemp
      have hsp : (scrape_page net now p errs).1 = [] := by
        rw [scrape_page_fst net now p errs]
        exact hpa
      simp [hsp, hpa]
    · rw [scrapeGo_cons_nonempty rest acc (Bool.not_eq_true _ ▸ hemp)]
      have hsp : (scrape_page net now p errs).1 = page_articles net now p :=
        scrape_page_fst net now p errs
      simp only [List.map_cons, List.flatten_cons]
      rw [ih (acc ++ (scrape_page net now p errs).1) (scrape_page net now p errs).2]
      rw [hsp, List.append_assoc]

lemma scrapeGo_fetched_take (net : String → NetOutcome) (now : String) :
    ∀ (ps : List Nat) (acc : List Article) (errs : List String),
      ∃ n, (scrapeGo net now ps acc errs).fetched = ps.take n := by
  intro ps
  induction ps with
  | nil => intro acc errs; exact ⟨0, rfl⟩
  | cons p rest ih =>
    intro acc errs
    by_cases hemp : (scrape_page net now p errs).1.isEmpty
    · refine ⟨1, ?_⟩
      rw [scrapeGo_cons_empty rest acc hemp]
      simp
    · obtain ⟨n, hn⟩ := ih (acc ++ (scrape_page net now p errs).1) (scrape_page net now p errs).2
      refine ⟨n + 1, ?_⟩
      rw [scrapeGo_cons_nonempty rest acc (Bool.not_eq_true _ ▸ hemp)]
      simp [List.take_succ_cons, hn]

lemma scrapeGo_stop (net : String → NetOutcome) (now : String) (k : Nat)
    (hk : page_articles net now k = []) :
    ∀ (ps₁ ps₂ : List Nat) (acc : List Article) (errs : List String),
      ∀ q ∈ (scrapeGo net now (ps₁ ++ k :: ps₂) acc errs).fetched, q ∈ ps₁ ++ [k] := by
  intro ps₁
  induction ps₁ with
  | nil =>
    intro ps₂ acc errs q hq
    have hemp : (scrape_page net now k errs).1.isEmpty = true := by
      rw [List.isEmpty_iff, scrape_page_fst]
      exact hk
    rw [List.nil_append, scrapeGo_cons_empty ps₂ acc hemp] at hq
    simpa using hq
  | cons p ps₁ ih =>
    intro ps₂ acc errs q hq
    rw [List.cons_append] at hq
    by_cases hemp : (scrape_page net now p errs).1.isEmpty
    · rw [scrapeGo_cons_empty (ps₁ ++ k :: ps₂) acc hemp] at hq
      simp at hq
      subst hq
      exact List.mem_append_left _ (List.mem_cons_self _ _)
    · rw [scrapeGo_cons_nonempty (ps₁ ++ k :: ps₂) acc (Bool.not_eq_true _ ▸ hemp)] at hq
      rcases List.mem_cons.1 hq with rfl | hq'
      · exact List.mem_append_left _ (List.mem_cons_self q ps₁)
      · have := ih ps₂ (acc ++ (scrape_page net now p errs).1)
          (scrape_page net now p errs).2 q hq'
        rcases List.mem_append.1 this with h1 | h1
        · exact List.mem_append_left _ (List.mem_cons_of_mem p h1)
        · exact List.mem_append_right _ h1

lemma take_range'_one : ∀ (n m s : Nat), (List.range' s n).take m = List.range' s (min m n) := by
  intro n
  induction n with
  | zero => intro m s; simp
  | succ n ih =>
    intro m s
    cases m with
    | zero => simp
    | succ m =>
      rw [List.range'_succ, List.take_succ_cons, ih m (s + 1), Nat.succ_min_succ,
        List.range'_succ]

/-! ### Claims about the page loop -/

/-- C9: calling `scrape_all_pages` with a non-positive `max_pages` completes
normally with the empty article sequence, no page fetched at all, and the
error log unchanged (the `range(1, max_pages+1)` loop body never runs). -/
theorem C9_nonpositive_pages (net : String → NetOutcome) (now : String)
    (errs : List String) (max_pages : Int) (hmp : max_pages ≤ 0) :
    scrape_all_pages net now max_pages errs = ⟨[], errs, []⟩ := by
  unfold scrape_all_pages
  have h0 : max_pages.toNat = 0 := by omega
  rw [h0]
  rfl

/-- Witness for C9 at `max_pages = -3`. -/
theorem C9_witness :
    scrape_all_pages netW404 "2024-01-01 00:00:00" (-3) [] = ⟨[], [], []⟩ :=
  C9_nonpositive_pages netW404 "2024-01-01 00:00:00" [] (-3) (by decide)

/-- C1: if page `k` (with `1 ≤ k ≤ max_pages`) yields zero articles — by
fetch failure or because no card parses — then `scrape_all_pages` never
fetches any page beyond `k`: every fetched page number is `≤ k`; if the loop
reaches page `k` at all it fetches exactly pages `1..k` and stops there; and
the returned articles are exactly the concatenation, in order, of the
articles of the fetched pages. -/
theorem C1_early_stop (net : String → NetOutcome) (now : String)
    (errs : List String) (max_pages : Int) (k : Nat)
    (hk1 : 1 ≤ k) (hkmp : (k : Int) ≤ max_pages)
    (hempty : page_articles net now k = []) :
    (∀ p ∈ (scrape_all_pages net now max_pages errs).fetched, p ≤ k) ∧
    (k ∈ (scrape_all_pages net now max_pages errs).fetched →
      (scrape_all_pages net now max_pages errs).fetched = List.range' 1 k) ∧
    (scrape_all_pages net now max_pages errs).articles
      = ((scrape_all_pages net now max_pages errs).fetched.map
          (page_articles net now)).flatten := by
  have hkmpt : k ≤ max_pages.toNat := by omega
  have hsplit : List.range' 1 max_pages.toNat
      = List.range' 1 (k - 1) ++ k :: List.range' (k + 1) (max_pages.toNat - k) := by
    have h1 : List.range' 1 (k - 1) ++ List.range' (1 + (k - 1)) (max_pages.toNat - (k - 1))
        = List.range' 1 ((max_pages.toNat - (k - 1)) + (k - 1)) :=
      List.range'_append_1 1 (k - 1) (max_pages.toNat - (k - 1))
    have e1 : 1 + (k - 1) = k := by omega
    have e2 : (max_pages.toNat - (k - 1)) + (k - 1) = max_pages.toNat := by omega
    have e3 : max_pages.toNat - (k - 1) = (max_pages.toNat - k) + 1 := by omega
    rw [e1, e2, e3] at h1
    rw [← h1, List.range'_succ]
  have hstop : ∀ q ∈ (scrape_all_pages net now max_pages errs).fetched,
      q ∈ List.range' 1 (k - 1) ++ [k] := by
    intro q hq
    apply scrapeGo_stop net now k hempty (List.range' 1 (k - 1))
      (List.range' (k + 1) (max_pages.toNat - k)) [] errs q
    unfold scrape_all_pages at hq
    rw [hsplit] at hq
    exact hq
  have hle : ∀ p ∈ (scrape_all_pages net now max_pages errs).fetched, p ≤ k := by
    intro p hp
    rcases List.mem_append.1 (hstop p hp) with h1 | h1
    · have := List.mem_range'_1.1 h1
      omega
    · rw [List.mem_singleton] at h1
      omega
  refine ⟨hle, ?_, ?_⟩
  · intro hkf
    obtain ⟨n, hn⟩ := scrapeGo_fetched_take net now (List.range' 1 max_pages.toNat) [] errs
    have hfet : (scrape_all_pages net now max_pages errs).fetched
        = List.range' 1 (min n max_pages.toNat) := by
      unfold scrape_all_pages
      rw [hn, take_range'_one]
    rw [hfet]
    rw [hfet] at hkf
    have hkj : k ≤ min n max_pages.toNat := by
      have := List.mem_range'_1.1 hkf
      omega
    have hjk : min n max_pages.toNat ≤ k := by
      have hjm : min n max_pages.toNat ∈ List.range' 1 (min n max_pages.toNat) := by
        rw [List.mem_range'_1]
        omega
      have := hle (min n max_pages.toNat) (by rw [hfet]; exact hjm)
      omega
    have : min n max_pages.toNat = k := Nat.le_antisymm hjk hkj
    rw [this]
  · have := scrapeGo_articles net now (List.range' 1 max_pages.toNat) [] errs
    unfold scrape_all_pages
    simpa using this

/-- Witness for C1: with one good card on page 1 and an empty page 2, a
5-page budget fetches exactly pages 1 and 2. -/
theorem C1_witness :
    (scrape_all_pages netOnePage "2024-01-01 00:00:00" 5 []).fetched
      = List.range' 1 2 :=
  (C1_early_stop netOnePage "2024-01-01 00:00:00" [] 5 2 (by decide) (by decide)
    (by decide)).2.1 (by decide)

/-- Length of a flattened map is bounded by the list length times a uniform
bound on the image lengths. -/
lemma flatten_map_length_le (f : Nat → List Article) (C : Nat) :
    ∀ (L : List Nat), (∀ p ∈ L, (f p).length ≤ C) →
      ((L.map f).flatten).length ≤ L.length * C := by
  intro L
  induction L with
  | nil => intro _; simp
  | cons p rest ih =>
    intro h
    have h1 : (f p).length ≤ C := h p (List.mem_cons_self p rest)
    have h2 := ih fun q hq => h q (List.mem_cons_of_mem p hq)
    simp only [List.map_cons, List.flatten_cons, List.length_append, List.length_cons]
    calc (f p).length + ((rest.map f).flatten).length
        ≤ C + rest.length * C := Nat.add_le_add h1 h2
      _ = (rest.length + 1) * C := by ring

lemma page_articles_length_le (net : String → NetOutcome) (now : String) (p : Nat) :
    (page_articles net now p).length ≤ cards_count net p := by
  unfold page_articles scrape_page fetch_page cards_count
  cases h : net (page_url p) with
  | status code doc =>
    by_cases hc : code = 200
    · simp only [h, hc, if_true, if_pos rfl]
      exact List.length_filterMap_le _ _
    · simp [h, hc]
  | exc msg => simp [h]

/-- C6: with every page offering at most `C` cards, `scrape_all_pages`
returns at most `max_pages * C` articles, and the returned sequence is the
in-order concatenation of the per-page article lists of an initial segment
`1..n` of the page range (pages in ascending order, cards in page order
within each page — `page_articles` preserves card order by construction). -/
theorem C6_order_and_bound (net : String → NetOutcome) (now : String)
    (errs : List String) (max_pages : Int) (C : Nat)
    (_hmp : 1 ≤ max_pages) (hC : ∀ p, cards_count net p ≤ C) :
    (scrape_all_pages net now max_pages errs).articles.length ≤ max_pages.toNat * C ∧
    ∃ n, n ≤ max_pages.toNat ∧
      (scrape_all_pages net now max_pages errs).articles
        = ((List.range' 1 n).map (page_articles net now)).flatten := by
  obtain ⟨n0, hn0⟩ := scrapeGo_fetched_take net now (List.range' 1 max_pages.toNat) [] errs
  have hfet : (scrape_all_pages net now max_pages errs).fetched
      = List.range' 1 (min n0 max_pages.toNat) := by
    unfold scrape_all_pages
    rw [hn0, take_range'_one]
  have harts : (scrape_all_pages net now max_pages errs).articles
      = (((scrape_all_pages net now max_pages errs).fetched).map
          (page_articles net now)).flatten := by
    have := scrapeGo_articles net now (List.range' 1 max_pages.toNat) [] errs
    unfold scrape_all_pages
    simpa using this
  constructor
  · rw [harts, hfet]
    calc ((( List.range' 1 (min n0 max_pages.toNat)).map (page_articles net now)).flatten).length
        ≤ (List.range' 1 (min n0 max_pages.toNat)).length * C := by
          apply flatten_map_length_le
          intro p _
          exact Nat.le_trans (page_articles_length_le net now p) (hC p)
      _ = min n0 max_pages.toNat * C := by rw [List.length_range']
      _ ≤ max_pages.toNat * C := Nat.mul_le_mul_right C (Nat.min_le_right _ _)
  · exact ⟨min n0 max_pages.toNat, Nat.min_le_right _ _, by rw [harts, hfet]⟩

/-- Witness for C6: three pages of two cards each yield at most six articles. -/
theorem C6_witness :
    (scrape_all_pages netTwoCards "2024-01-01 00:00:00" 3 []).articles.length ≤ 6 :=
  (C6_order_and_bound netTwoCards "2024-01-01 00:00:00" [] 3 2 (by decide)
    (fun _ => Nat.le.refl)).1

end NewsScraper
